import Mathlib

/-! Verification of boxFilterNPP: a shallow embedding of `src/boxFilterNPP.cpp`.

`std::string` values are lists of characters, `std::string::size_type` values
are natural numbers below `2 ^ 64` with wrap-around arithmetic written out,
a C++ exception is the error branch of `Except`, and `exit` ends the run with
the exit code it is given.
-/

namespace BoxFilterNPP

/-! ## Strings -/

/-- The number of values of `std::string::size_type` (64-bit unsigned). -/
def sizeTypeModulus : Nat := 2 ^ 64

/-- The constant `std::string::npos`, the largest `size_type` value. -/
def npos : Nat := sizeTypeModulus - 1

/-- Exceptions that reach the handlers of `main`: `npp::Exception`, which the
first handler takes, and everything else (here `std::out_of_range` from
`substr` and `std::filesystem::filesystem_error`), which `catch (...)` takes. -/
inductive CppException where
  | nppException
  | out_of_range
  | filesystem_error
  | other
  deriving DecidableEq, Repr

/-- Index of the last occurrence of `c` in `s`, counting the first character
of `s` as index `i`; `none` when `c` does not occur. -/
def rfindFrom (c : Char) : List Char → Nat → Option Nat
  | [], _ => none
  | x :: xs, i =>
    match rfindFrom c xs (i + 1) with
    | some j => some j
    | none => if x = c then some i else none

/-- The member `std::string::rfind(char)`: position of the last occurrence of
`c`, or `npos` when there is none. -/
def rfind (s : List Char) (c : Char) : Nat :=
  match rfindFrom c s 0 with
  | some j => j
  | none => npos

/-- The member `std::string::substr(pos, n)`: throws `std::out_of_range` when
`pos` exceeds the size, otherwise the at most `n` characters from `pos` on. -/
def substr (s : List Char) (pos n : Nat) : Except CppException (List Char) :=
  if pos > s.length then Except.error CppException.out_of_range
  else Except.ok ((s.drop pos).take n)

/-- Lines 161-172 of `main`: the value of `sResultFilename` handed to
`runFilter`, computed from `sFilename`. The three `size_type` operations
`slash + 1`, `dot - slash` and `... + 1` are taken modulo `2 ^ 64`. -/
def sResultFilename (sFilename : List Char) : Except CppException (List Char) :=
  let sResultPath : List Char := "output/".toList
  let dot := rfind sFilename '.'
  let slash := rfind sFilename '/'
  let stem : Except CppException (List Char) :=
    if dot ≠ npos ∧ slash ≠ npos then
      substr sFilename ((slash + 1) % sizeTypeModulus)
        (((dot + sizeTypeModulus - slash) % sizeTypeModulus + 1) % sizeTypeModulus)
    else Except.ok []
  match stem with
  | Except.error e => Except.error e
  | Except.ok name => Except.ok (sResultPath ++ name ++ "_boxFilterOutput.pgm".toList)

/-! ## The batch driver -/

/-- The exit status `EXIT_SUCCESS`. -/
def EXIT_SUCCESS : Int := 0

/-- The exit status `EXIT_FAILURE`. -/
def EXIT_FAILURE : Int := 1

/-- What a call of `checkFileError` leaves behind: the local `file_errors`
when control reaches the closing brace, and the operand of the `return`
statement that ended the call, `none` when the call ended without one. -/
structure CheckFileErrorRun where
  file_errors : Int
  returned : Option Int
  deriving DecidableEq, Repr

/-- The function `checkFileError`, with `good` the value of `infile.good()`
after the stream is opened on `sFilename`. Both branches set `file_errors`
and close the stream; the body then ends, and no branch executes a `return`
statement. -/
def checkFileError (good : Bool) : CheckFileErrorRun :=
  let file_errors : Int := 0
  if good then
    { file_errors := 0, returned := none }
  else
    { file_errors := file_errors + 1, returned := none }

/-- The function `printfNPPinfo`: after printing the versions it returns the
value of `checkCudaCapabilities(1, 0)`, a helper outside this file that is
taken as a parameter. -/
def printfNPPinfo (checkCudaCapabilities : Int → Int → Bool) : Bool :=
  let bVal := checkCudaCapabilities 1 0
  bVal

/-- One element of the iteration over `data/`, with what the environment
answers for it: `path` is `entry.path()`, `good` is what `infile.good()` gives
in `checkFileError`, `indeterminate` is the value the call expression
`checkFileError(sFilename)` takes when the call ends without a `return`
statement, and `filter` is how the call `runFilter(sFilename,
sResultFilename)` ends (normally, or with the exception it lets escape). -/
structure DirEntry where
  path : List Char
  good : Bool
  indeterminate : Int
  filter : Except CppException Unit

/-- The value of the expression `checkFileError(sFilename)` on line 156. -/
def checkFileErrorValue (e : DirEntry) : Int :=
  match (checkFileError e.good).returned with
  | some v => v
  | none => e.indeterminate

/-- What a run of `main` does that can be seen from outside: the exit code,
the calls of `runFilter` in order (source and result file name), and the
result files of the calls that returned, each of which ends in `saveImage`. -/
structure Run where
  exitCode : Int
  invoked : List (List Char × List Char)
  written : List (List Char)

/-- The loop of `main` over the directory entries (lines 151-175) followed
by lines 177-178. `exit(EXIT_FAILURE)` on line 158 and the two handlers end
the run with `EXIT_FAILURE`; an exception of `substr` or of `runFilter`
leaves the loop for a handler. -/
def mainLoop : List DirEntry → Run
  | [] => { exitCode := EXIT_SUCCESS, invoked := [], written := [] }
  | entry :: rest =>
    if checkFileErrorValue entry > 0 then
      { exitCode := EXIT_FAILURE, invoked := [], written := [] }
    else
      match sResultFilename entry.path with
      | Except.error _ => { exitCode := EXIT_FAILURE, invoked := [], written := [] }
      | Except.ok name =>
        match entry.filter with
        | Except.error _ =>
          { exitCode := EXIT_FAILURE, invoked := [(entry.path, name)], written := [] }
        | Except.ok _ =>
          let r := mainLoop rest
          { exitCode := r.exitCode
            invoked := (entry.path, name) :: r.invoked
            written := name :: r.written }

/-- The function `main` once `findCudaDevice` has returned: `files` is what
`std::filesystem::directory_iterator("data/")` yields, or the exception its
constructor throws. -/
def main (checkCudaCapabilities : Int → Int → Bool)
    (files : Except CppException (List DirEntry)) : Run :=
  if printfNPPinfo checkCudaCapabilities = false then
    { exitCode := EXIT_SUCCESS, invoked := [], written := [] }
  else
    match files with
    | Except.error _ => { exitCode := EXIT_FAILURE, invoked := [], written := [] }
    | Except.ok entries => mainLoop entries

/-- The result file name `runFilter` is called with for `sFilename`: the
value of `sResultFilename` when the derivation completes, the empty name when
it ends in an exception. -/
def resultNameOf (sFilename : List Char) : List Char :=
  match sResultFilename sFilename with
  | Except.ok name => name
  | Except.error _ => []

/-- The call of `runFilter` that the loop makes for a directory entry. -/
def callOf (entry : DirEntry) : List Char × List Char :=
  (entry.path, resultNameOf entry.path)

/-! ## The filter step -/

/-- The NPP struct `NppiSize` (two `int` fields). -/
structure NppiSize where
  width : Int
  height : Int
  deriving DecidableEq, Repr

/-- The NPP struct `NppiPoint` (two `int` fields). -/
structure NppiPoint where
  x : Int
  y : Int
  deriving DecidableEq, Repr

/-- The border modes of `NppiBorderType` that the program names. -/
inductive NppiBorderType where
  | NPP_BORDER_REPLICATE
  deriving DecidableEq, Repr

/-- An 8-bit single-channel image (`npp::ImageCPU_8u_C1` on the host,
`npp::ImageNPP_8u_C1` on the device): its `width()`, its `height()` and its
samples row by row. -/
structure Image_8u_C1 where
  width : Nat
  height : Nat
  rows : List (List Nat)
  deriving DecidableEq, Repr

/-- The conversion `(int)` that `runFilter` applies to `width()` and
`height()`, which are unsigned 32-bit values: two's complement. -/
def toInt (n : Nat) : Int :=
  if n % 2 ^ 32 < 2 ^ 31 then ((n % 2 ^ 32 : Nat) : Int)
  else ((n % 2 ^ 32 : Nat) : Int) - 2 ^ 32

/-- The conversion of an `int` to the unsigned 32-bit parameter of the image
constructor. -/
def toUnsigned (i : Int) : Nat := (i % 2 ^ 32).toNat

/-- The image of `w` by `h` samples that are all `v`. -/
def uniformImage (w h v : Nat) : Image_8u_C1 :=
  { width := w, height := h, rows := List.replicate h (List.replicate w v) }

/-- Border replication along one axis of extent `n`: the in-bounds coordinate
nearest to `i`. -/
def replicateCoord (i n : Int) : Nat := (max 0 (min i (n - 1))).toNat

/-- The source sample that the window reads at `(x, y)`, out-of-bounds
coordinates being replaced by the nearest in-bounds ones. -/
def borderSample (src : Image_8u_C1) (oSrcSize : NppiSize) (x y : Int) : Nat :=
  (src.rows.getD (replicateCoord y oSrcSize.height) []).getD
    (replicateCoord x oSrcSize.width) 0

/-- The mean over the window of size `oMaskSize` whose anchor cell lies on
`(x, y)`. -/
def boxMean (src : Image_8u_C1) (oSrcSize oMaskSize : NppiSize) (oAnchor : NppiPoint)
    (x y : Int) : Nat :=
  ((List.range oMaskSize.height.toNat).map fun (j : Nat) =>
    ((List.range oMaskSize.width.toNat).map fun (i : Nat) =>
      borderSample src oSrcSize (x + (i : Int) - oAnchor.x) (y + (j : Int) - oAnchor.y)).sum).sum
    / (oMaskSize.width * oMaskSize.height).toNat

/-- Modelled from the spec: the primitive `nppiFilterBoxBorder_8u_C1R` belongs
to the closed NPP library and is absent from the sources. Following the
glossary (box filter: each pixel is replaced with the mean of its neighborhood
within the window; border replication: out-of-bounds samples repeat the
nearest in-bounds pixel) it yields, for every pixel of the region of interest,
the mean of the window anchored there, stored as an 8-bit sample. -/
def nppiFilterBoxBorder_8u_C1R (src : Image_8u_C1) (oSrcSize : NppiSize)
    (oSrcOffset : NppiPoint) (oSizeROI oMaskSize : NppiSize) (oAnchor : NppiPoint)
    (_eBorderType : NppiBorderType) : List (List Nat) :=
  (List.range oSizeROI.height.toNat).map fun (y : Nat) =>
    (List.range oSizeROI.width.toNat).map fun (x : Nat) =>
      boxMean src oSrcSize oMaskSize oAnchor (oSrcOffset.x + (x : Int)) (oSrcOffset.y + (y : Int))
        % 256

/-- What `runFilter` computes from the loaded image: the arguments it passes
to the primitive, the size it allocates for the device destination and the
host image it hands to `saveImage`. -/
structure FilterRun where
  oMaskSize : NppiSize
  oSrcSize : NppiSize
  oSrcOffset : NppiPoint
  oSizeROI : NppiSize
  oDeviceDstSize : Nat × Nat
  oAnchor : NppiPoint
  eBorderType : NppiBorderType
  oHostDst : Image_8u_C1
  deriving DecidableEq, Repr

/-- The function `runFilter` from line 80 on, with `oHostSrc` the image that
`npp::loadImage` produced. The device source is a copy of the host image; the
host destination takes the size of the device destination and the samples
the primitive wrote into it. -/
def runFilter (oHostSrc : Image_8u_C1) : FilterRun :=
  let oDeviceSrc := oHostSrc
  let oMaskSize : NppiSize := { width := 5, height := 5 }
  let oSrcSize : NppiSize :=
    { width := toInt oDeviceSrc.width, height := toInt oDeviceSrc.height }
  let oSrcOffset : NppiPoint := { x := 0, y := 0 }
  let oSizeROI : NppiSize :=
    { width := toInt oDeviceSrc.width, height := toInt oDeviceSrc.height }
  let oDeviceDstSize : Nat × Nat := (toUnsigned oSizeROI.width, toUnsigned oSizeROI.height)
  let oAnchor : NppiPoint :=
    { x := Int.tdiv oMaskSize.width 2, y := Int.tdiv oMaskSize.height 2 }
  let dst := nppiFilterBoxBorder_8u_C1R oDeviceSrc oSrcSize oSrcOffset oSizeROI oMaskSize
    oAnchor NppiBorderType.NPP_BORDER_REPLICATE
  let oHostDst : Image_8u_C1 :=
    { width := oDeviceDstSize.1, height := oDeviceDstSize.2, rows := dst }
  { oMaskSize := oMaskSize, oSrcSize := oSrcSize, oSrcOffset := oSrcOffset,
    oSizeROI := oSizeROI, oDeviceDstSize := oDeviceDstSize, oAnchor := oAnchor,
    eBorderType := NppiBorderType.NPP_BORDER_REPLICATE, oHostDst := oHostDst }

/-! ## Facts about `rfind` and `substr` -/

theorem rfindFrom_eq_none (c : Char) (s : List Char) (i : Nat) :
    rfindFrom c s i = none ↔ c ∉ s := by
  induction s generalizing i with
  | nil => simp [rfindFrom]
  | cons x xs ih =>
    unfold rfindFrom
    cases h : rfindFrom c xs (i + 1) with
    | none =>
      have hc : c ∉ xs := (ih (i + 1)).1 h
      by_cases hx : x = c
      · simp [hx]
      · have hx2 : ¬ c = x := fun h2 => hx h2.symm
        simp [hx, hx2, hc]
    | some j =>
      have hc : ¬ c ∉ xs := fun hn => by
        have := (ih (i + 1)).2 hn
        rw [h] at this
        cases this
      simp only [not_not] at hc
      simp [hc]

theorem rfindFrom_bounds (c : Char) (s : List Char) (i j : Nat)
    (h : rfindFrom c s i = some j) : i ≤ j ∧ j < i + s.length := by
  induction s generalizing i with
  | nil => simp [rfindFrom] at h
  | cons x xs ih =>
    unfold rfindFrom at h
    cases h2 : rfindFrom c xs (i + 1) with
    | none =>
      rw [h2] at h
      by_cases hx : x = c
      · simp [hx] at h
        subst h
        simp
      · simp [hx] at h
    | some k =>
      rw [h2] at h
      simp at h
      subst h
      have := ih (i + 1) h2
      simp only [List.length_cons]
      omega

theorem rfindFrom_append (c : Char) (a b : List Char) (i : Nat) (hb : c ∉ b) :
    rfindFrom c (a ++ c :: b) i = some (i + a.length) := by
  induction a generalizing i with
  | nil =>
    have hn : rfindFrom c b (i + 1) = none := (rfindFrom_eq_none c b (i + 1)).2 hb
    simp [rfindFrom, hn]
  | cons x xs ih =>
    have := ih (i + 1)
    show rfindFrom c (x :: (xs ++ c :: b)) i = some (i + (xs.length + 1))
    rw [rfindFrom, this]
    exact congrArg some (by omega)

theorem rfind_of_not_mem (s : List Char) (c : Char) (h : c ∉ s) : rfind s c = npos := by
  have hn : rfindFrom c s 0 = none := (rfindFrom_eq_none c s 0).2 h
  simp [rfind, hn]

theorem rfind_lt_length (s : List Char) (c : Char) (h : rfind s c ≠ npos) :
    rfind s c < s.length := by
  unfold rfind at h ⊢
  cases hf : rfindFrom c s 0 with
  | none => simp [hf] at h
  | some j =>
    have := rfindFrom_bounds c s 0 j hf
    show j < s.length
    omega

theorem rfind_append (a b : List Char) (c : Char) (hb : c ∉ b) :
    rfind (a ++ c :: b) c = a.length := by
  simp [rfind, rfindFrom_append c a b 0 hb]

theorem substr_ok (s : List Char) (pos n : Nat) (h : pos ≤ s.length) :
    substr s pos n = Except.ok ((s.drop pos).take n) := by
  unfold substr
  rw [if_neg (by omega)]

/-- On a path `d/b.e` whose last `/` and last `.` are the ones shown, the
derivation keeps `b`, the dot and the first character of `e`. -/
theorem sResultFilename_shape (d b e : List Char)
    (hb : '/' ∉ b) (he : '/' ∉ e) (hdot : '.' ∉ e)
    (hlen : (d ++ '/' :: (b ++ '.' :: e)).length < npos) :
    sResultFilename (d ++ '/' :: (b ++ '.' :: e))
      = Except.ok ("output/".toList ++ (b ++ '.' :: e.take 1)
          ++ "_boxFilterOutput.pgm".toList) := by
  have hslash : rfind (d ++ '/' :: (b ++ '.' :: e)) '/' = d.length := by
    apply rfind_append
    simp only [List.mem_append, List.mem_cons, not_or]
    exact ⟨hb, by decide, he⟩
  have hd : rfind (d ++ '/' :: (b ++ '.' :: e)) '.' = d.length + 1 + b.length := by
    have heq : d ++ '/' :: (b ++ '.' :: e) = (d ++ '/' :: b) ++ '.' :: e := by simp
    rw [heq, rfind_append _ _ _ hdot]
    simp only [List.length_append, List.length_cons]
    omega
  have hM : sizeTypeModulus = npos + 1 := by decide
  simp only [List.length_append, List.length_cons] at hlen
  have h1 : (d.length + 1) % sizeTypeModulus = d.length + 1 :=
    Nat.mod_eq_of_lt (by omega)
  have h2 : (d.length + 1 + b.length + sizeTypeModulus - d.length) % sizeTypeModulus
      = b.length + 1 := by
    have : d.length + 1 + b.length + sizeTypeModulus - d.length
        = b.length + 1 + sizeTypeModulus := by omega
    rw [this, Nat.add_mod_right]
    exact Nat.mod_eq_of_lt (by omega)
  have h3 : (b.length + 1 + 1) % sizeTypeModulus = b.length + 2 :=
    Nat.mod_eq_of_lt (by omega)
  have hdrop : (d ++ '/' :: (b ++ '.' :: e)).drop (d.length + 1) = b ++ '.' :: e := by
    have heq : d ++ '/' :: (b ++ '.' :: e) = (d ++ ['/']) ++ (b ++ '.' :: e) := by simp
    rw [heq]
    exact List.drop_left' (by simp)
  have htake : (b ++ '.' :: e).take (b.length + 2) = b ++ '.' :: e.take 1 := by
    rw [List.take_append_eq_append_take, List.take_of_length_le (by omega)]
    have : b.length + 2 - b.length = 1 + 1 := by omega
    rw [this, List.take_succ_cons]
  unfold sResultFilename
  simp only [hslash, hd]
  rw [if_pos ⟨by omega, by omega⟩, h1, h2, h3,
    substr_ok _ _ _ (by simp only [List.length_append, List.length_cons]; omega),
    hdrop, htake]

/-- The derivation never ends in the exception of `substr`: the result is
always `output/`, a stem and the fixed suffix. -/
theorem sResultFilename_ok (sFilename : List Char) :
    ∃ name, sResultFilename sFilename
      = Except.ok ("output/".toList ++ name ++ "_boxFilterOutput.pgm".toList) := by
  unfold sResultFilename
  by_cases h : rfind sFilename '.' ≠ npos ∧ rfind sFilename '/' ≠ npos
  · have hlt := rfind_lt_length sFilename '/' h.2
    have hle : (rfind sFilename '/' + 1) % sizeTypeModulus ≤ sFilename.length :=
      Nat.le_trans (Nat.mod_le _ _) hlt
    simp only [if_pos h, substr_ok _ _ _ hle]
    exact ⟨_, rfl⟩
  · simp only [if_neg h]
    exact ⟨[], rfl⟩

theorem sResultFilename_of_not_found (sFilename : List Char)
    (h : ¬ (rfind sFilename '.' ≠ npos ∧ rfind sFilename '/' ≠ npos)) :
    sResultFilename sFilename = Except.ok "output/_boxFilterOutput.pgm".toList := by
  unfold sResultFilename
  simp only [if_neg h]
  rfl

/-! ## The claims about the result file name -/

/-- C1: on the input `data/cat.pgm` the code derives the result file name
`output/cat.p_boxFilterOutput.pgm` (the stem keeps the dot and one character
of the extension), which is not `output/cat_boxFilterOutput.pgm`. -/
theorem sResultFilename_data_cat_pgm :
    sResultFilename "data/cat.pgm".toList
        = Except.ok "output/cat.p_boxFilterOutput.pgm".toList ∧
      sResultFilename "data/cat.pgm".toList
        ≠ Except.ok "output/cat_boxFilterOutput.pgm".toList := by
  have h : sResultFilename "data/cat.pgm".toList
      = Except.ok "output/cat.p_boxFilterOutput.pgm".toList := rfl
  refine ⟨h, ?_⟩
  rw [h]
  intro hc
  have hl := congrArg List.length (Except.ok.inj hc)
  revert hl
  decide

/-- C9: whenever both a `.` and a `/` are found, the start position
`slash + 1` of `substr` is at most the length of the string, and for every
input the derivation returns, without an exception, a name that starts with
`output/` and ends with `_boxFilterOutput.pgm`. -/
theorem sResultFilename_total (sFilename : List Char) :
    (rfind sFilename '.' ≠ npos → rfind sFilename '/' ≠ npos →
      (rfind sFilename '/' + 1) % sizeTypeModulus ≤ sFilename.length) ∧
    ∃ name, sResultFilename sFilename
      = Except.ok ("output/".toList ++ name ++ "_boxFilterOutput.pgm".toList) :=
  ⟨fun _ hs => Nat.le_trans (Nat.mod_le _ _) (rfind_lt_length sFilename '/' hs),
    sResultFilename_ok sFilename⟩

/-- C9 at `data.d/cat`, where the last `.` precedes the last `/` and the
length argument wraps around to `2 ^ 64 - 1`. -/
theorem sResultFilename_total_witness :
    (((rfind "data.d/cat".toList '.' + sizeTypeModulus - rfind "data.d/cat".toList '/')
        % sizeTypeModulus + 1) % sizeTypeModulus = 2 ^ 64 - 1) ∧
    (rfind "data.d/cat".toList '/' + 1) % sizeTypeModulus ≤ "data.d/cat".toList.length ∧
    ∃ name, sResultFilename "data.d/cat".toList
      = Except.ok ("output/".toList ++ name ++ "_boxFilterOutput.pgm".toList) :=
  ⟨by decide,
    (sResultFilename_total "data.d/cat".toList).1 (by decide) (by decide),
    (sResultFilename_total "data.d/cat".toList).2⟩

/-- C10: for every input path without a `.`, or without a `/`, the derived
result file name is exactly `output/_boxFilterOutput.pgm`. -/
theorem sResultFilename_without_dot_or_slash (sFilename : List Char)
    (h : '.' ∉ sFilename ∨ '/' ∉ sFilename) :
    sResultFilename sFilename = Except.ok "output/_boxFilterOutput.pgm".toList := by
  apply sResultFilename_of_not_found
  rintro ⟨hd, hs⟩
  rcases h with h | h
  · exact hd (rfind_of_not_mem _ _ h)
  · exact hs (rfind_of_not_mem _ _ h)

/-- C10 at the extension-less path `data/README`. -/
theorem sResultFilename_without_dot_or_slash_witness :
    ('.' ∉ "data/README".toList ∨ '/' ∉ "data/README".toList) ∧
    sResultFilename "data/README".toList
      = Except.ok "output/_boxFilterOutput.pgm".toList :=
  ⟨Or.inl (by decide),
    sResultFilename_without_dot_or_slash "data/README".toList (Or.inl (by decide))⟩

/-- C4 fails: the distinct inputs `data/a` and `data/b` derive the same
result file name. -/
theorem sResultFilename_not_injective :
    "data/a".toList ≠ "data/b".toList ∧
    sResultFilename "data/a".toList = sResultFilename "data/b".toList ∧
    sResultFilename "data/a".toList = Except.ok "output/_boxFilterOutput.pgm".toList :=
  ⟨by decide, rfl, rfl⟩

/-- C4 as amended: two inputs `data/b1.e1` and `data/b2.e2` (no `/` in the
names, no `.` in the extensions) whose basenames `b1` and `b2` differ derive
different result file names. -/
theorem sResultFilename_distinct_basenames (b1 e1 b2 e2 : List Char)
    (hb1 : '/' ∉ b1) (he1 : '/' ∉ e1) (hd1 : '.' ∉ e1)
    (hb2 : '/' ∉ b2) (he2 : '/' ∉ e2) (hd2 : '.' ∉ e2)
    (hl1 : ("data/".toList ++ (b1 ++ '.' :: e1)).length < npos)
    (hl2 : ("data/".toList ++ (b2 ++ '.' :: e2)).length < npos)
    (hne : b1 ≠ b2) :
    sResultFilename ("data/".toList ++ (b1 ++ '.' :: e1))
      ≠ sResultFilename ("data/".toList ++ (b2 ++ '.' :: e2)) := by
  have hdata : ∀ x : List Char, "data/".toList ++ x = "data".toList ++ '/' :: x :=
    fun _ => rfl
  rw [hdata] at hl1 hl2 ⊢
  rw [hdata, sResultFilename_shape _ b1 e1 hb1 he1 hd1 hl1,
    sResultFilename_shape _ b2 e2 hb2 he2 hd2 hl2]
  intro hc
  have h1 := Except.ok.inj hc
  have h2 := List.append_cancel_left (List.append_cancel_right h1)
  have hn1 : '.' ∉ e1.take 1 := fun hm => hd1 (List.mem_of_mem_take hm)
  have hn2 : '.' ∉ e2.take 1 := fun hm => hd2 (List.mem_of_mem_take hm)
  have r1 := rfind_append b1 (e1.take 1) '.' hn1
  have r2 := rfind_append b2 (e2.take 1) '.' hn2
  rw [h2, r2] at r1
  exact hne (List.append_inj h2 r1.symm).1

/-- C4 as amended, at `data/cat.pgm` and `data/dog.pgm`. -/
theorem sResultFilename_distinct_basenames_witness :
    sResultFilename "data/cat.pgm".toList ≠ sResultFilename "data/dog.pgm".toList :=
  sResultFilename_distinct_basenames "cat".toList "pgm".toList "dog".toList "pgm".toList
    (by decide) (by decide) (by decide) (by decide) (by decide) (by decide)
    (by decide) (by decide) (by decide)

/-! ## Facts about the loop of `main` -/

theorem sResultFilename_eq_resultNameOf (sFilename : List Char) :
    sResultFilename sFilename = Except.ok (resultNameOf sFilename) := by
  obtain ⟨name, h⟩ := sResultFilename_ok sFilename
  simp [resultNameOf, h]

theorem mainLoop_cons (entry : DirEntry) (rest : List DirEntry) :
    mainLoop (entry :: rest) =
      if checkFileErrorValue entry > 0 then
        { exitCode := EXIT_FAILURE, invoked := [], written := [] }
      else
        match entry.filter with
        | Except.error _ =>
          { exitCode := EXIT_FAILURE, invoked := [callOf entry], written := [] }
        | Except.ok _ =>
          { exitCode := (mainLoop rest).exitCode
            invoked := callOf entry :: (mainLoop rest).invoked
            written := resultNameOf entry.path :: (mainLoop rest).written } := by
  rw [mainLoop, sResultFilename_eq_resultNameOf]
  rfl

/-- A loop that ends with `EXIT_SUCCESS` has called `runFilter` on every
entry, in order, and every call returned. -/
theorem mainLoop_success (entries : List DirEntry)
    (h : (mainLoop entries).exitCode = EXIT_SUCCESS) :
    (mainLoop entries).invoked = entries.map callOf ∧
    (mainLoop entries).written = entries.map (fun d => resultNameOf d.path) ∧
    ∀ d ∈ entries, d.filter = Except.ok () := by
  induction entries with
  | nil => simp [mainLoop]
  | cons entry rest ih =>
    rw [mainLoop_cons] at h ⊢
    by_cases hc : checkFileErrorValue entry > 0
    · rw [if_pos hc] at h
      exact absurd h (by decide)
    · rw [if_neg hc] at h ⊢
      cases hf : entry.filter with
      | error ex =>
        rw [hf] at h
        exact absurd h (by decide : ¬ EXIT_FAILURE = EXIT_SUCCESS)
      | ok u =>
        rw [hf] at h
        obtain ⟨h1, h2, h3⟩ := ih h
        refine ⟨?_, ?_, ?_⟩
        · simp [h1]
        · simp [h2]
        · intro d hd
          rcases List.mem_cons.1 hd with rfl | hd
          · exact hf
          · exact h3 d hd

/-- When the call of `runFilter` number `i` takes place and ends in an
exception, the loop ends with `EXIT_FAILURE`, the calls are those for the
entries up to `i`, and the calls before `i` all returned. -/
theorem mainLoop_exception (entries : List DirEntry) (i : Nat) (e : DirEntry)
    (ex : CppException) (hi : entries[i]? = some e)
    (hinv : i < (mainLoop entries).invoked.length)
    (hthrow : e.filter = Except.error ex) :
    (mainLoop entries).exitCode = EXIT_FAILURE ∧
    (mainLoop entries).invoked = (entries.take (i + 1)).map callOf ∧
    (mainLoop entries).written = (entries.take i).map (fun d => resultNameOf d.path) ∧
    ∀ d ∈ entries.take i, d.filter = Except.ok () := by
  induction entries generalizing i with
  | nil => simp at hi
  | cons entry rest ih =>
    rw [mainLoop_cons] at hinv ⊢
    by_cases hc : checkFileErrorValue entry > 0
    · rw [if_pos hc] at hinv
      simp at hinv
    · rw [if_neg hc] at hinv ⊢
      cases hf : entry.filter with
      | error ex2 =>
        rw [hf] at hinv
        simp only [List.length_singleton, Nat.lt_one_iff] at hinv
        subst hinv
        simp
      | ok u =>
        rw [hf] at hinv
        cases i with
        | zero =>
          simp only [List.getElem?_cons_zero, Option.some.injEq] at hi
          subst hi
          rw [hf] at hthrow
          cases hthrow
        | succ j =>
          simp only [List.getElem?_cons_succ] at hi
          simp only [List.length_cons, Nat.add_lt_add_iff_right] at hinv
          obtain ⟨h1, h2, h3, h4⟩ := ih j hi hinv
          refine ⟨h1, ?_, ?_, ?_⟩
          · simp [h2]
          · simp [h3]
          · intro d hd
            simp only [List.take_succ_cons, List.mem_cons] at hd
            rcases hd with rfl | hd
            · exact hf
            · exact h4 d hd

/-! ## The claims about the batch driver -/

/-- C2: `checkFileError` counts the failure in `file_errors` and then ends
without returning it. On a directory whose only entry `data/cat.pgm` cannot
be opened, with the value of the call expression being 0, `main` goes on to
call `runFilter` on that entry. -/
theorem checkFileError_unopenable_entry :
    checkFileError false = { file_errors := 1, returned := none } ∧
    checkFileError true = { file_errors := 0, returned := none } ∧
    (main (fun _ _ => true)
      (Except.ok [{ path := "data/cat.pgm".toList, good := false, indeterminate := 0,
                    filter := Except.error CppException.nppException }])).invoked
      = [("data/cat.pgm".toList, "output/cat.p_boxFilterOutput.pgm".toList)] :=
  ⟨rfl, rfl, rfl⟩

/-- C3 fails: with a capability check that fails and one readable file in
the directory, `main` ends with exit code 0 and has processed no file. -/
theorem main_incapable_device_exit_code :
    printfNPPinfo (fun _ _ => false) = false ∧
    (main (fun _ _ => false)
      (Except.ok [{ path := "data/cat.pgm".toList, good := true, indeterminate := 0,
                    filter := Except.ok () }])).exitCode = 0 ∧
    (main (fun _ _ => false)
      (Except.ok [{ path := "data/cat.pgm".toList, good := true, indeterminate := 0,
                    filter := Except.ok () }])).written = [] :=
  ⟨rfl, rfl, rfl⟩

/-- C3 as amended: when the capability check fails, `main` ends with
`EXIT_SUCCESS` without calling `runFilter`; when the check passes, `main`
ends with `EXIT_SUCCESS` only if the directory could be iterated and
`runFilter` was called on every entry, in order, and returned each time. -/
theorem main_capability_check (checkCudaCapabilities : Int → Int → Bool)
    (files : Except CppException (List DirEntry)) :
    (printfNPPinfo checkCudaCapabilities = false →
      (main checkCudaCapabilities files).exitCode = EXIT_SUCCESS ∧
      (main checkCudaCapabilities files).invoked = [] ∧
      (main checkCudaCapabilities files).written = []) ∧
    (printfNPPinfo checkCudaCapabilities = true →
      (main checkCudaCapabilities files).exitCode = EXIT_SUCCESS →
      ∃ entries, files = Except.ok entries ∧
        (main checkCudaCapabilities files).invoked = entries.map callOf ∧
        (main checkCudaCapabilities files).written
          = entries.map (fun d => resultNameOf d.path) ∧
        ∀ d ∈ entries, d.filter = Except.ok ()) := by
  constructor
  · intro h
    simp [main, h]
  · intro h hexit
    have hne : ¬ printfNPPinfo checkCudaCapabilities = false := by simp [h]
    unfold main at hexit ⊢
    rw [if_neg hne] at hexit ⊢
    cases files with
    | error ex => exact absurd hexit (by decide : ¬ EXIT_FAILURE = EXIT_SUCCESS)
    | ok entries => exact ⟨entries, rfl, mainLoop_success entries hexit⟩

/-- C3 as amended, at a failing check and at a passing check over one
readable file. -/
theorem main_capability_check_witness :
    ((main (fun _ _ => false) (Except.ok [])).exitCode = EXIT_SUCCESS ∧
      (main (fun _ _ => false) (Except.ok [])).invoked = [] ∧
      (main (fun _ _ => false) (Except.ok [])).written = []) ∧
    ∃ entries,
      (Except.ok [{ path := "data/cat.pgm".toList, good := true, indeterminate := 0,
                    filter := Except.ok () }] : Except CppException (List DirEntry))
        = Except.ok entries ∧
      (main (fun _ _ => true)
        (Except.ok [{ path := "data/cat.pgm".toList, good := true, indeterminate := 0,
                      filter := Except.ok () }])).invoked = entries.map callOf ∧
      (main (fun _ _ => true)
        (Except.ok [{ path := "data/cat.pgm".toList, good := true, indeterminate := 0,
                      filter := Except.ok () }])).written
        = entries.map (fun d => resultNameOf d.path) ∧
      ∀ d ∈ entries, d.filter = Except.ok () :=
  ⟨(main_capability_check (fun _ _ => false) (Except.ok [])).1 rfl,
    (main_capability_check (fun _ _ => true)
      (Except.ok [{ path := "data/cat.pgm".toList, good := true, indeterminate := 0,
                    filter := Except.ok () }])).2 rfl rfl⟩

/-- C5: when the call of `runFilter` for entry `i` takes place and ends in an
exception, `main` ends with `EXIT_FAILURE`, the calls of `runFilter` are
exactly those for the entries `0` to `i` in iteration order (none after
`i`), and the calls for the entries before `i` all returned and wrote their
result files. -/
theorem main_runFilter_exception (checkCudaCapabilities : Int → Int → Bool)
    (entries : List DirEntry) (i : Nat) (e : DirEntry) (ex : CppException)
    (hi : entries[i]? = some e)
    (hinv : i < (main checkCudaCapabilities (Except.ok entries)).invoked.length)
    (hthrow : e.filter = Except.error ex) :
    (main checkCudaCapabilities (Except.ok entries)).exitCode = EXIT_FAILURE ∧
    (main checkCudaCapabilities (Except.ok entries)).invoked
      = (entries.take (i + 1)).map callOf ∧
    (main checkCudaCapabilities (Except.ok entries)).written
      = (entries.take i).map (fun d => resultNameOf d.path) ∧
    ∀ d ∈ entries.take i, d.filter = Except.ok () := by
  unfold main at hinv ⊢
  by_cases hc : printfNPPinfo checkCudaCapabilities = false
  · rw [if_pos hc] at hinv
    simp at hinv
  · rw [if_neg hc] at hinv ⊢
    exact mainLoop_exception entries i e ex hi hinv hthrow

/-- C5 at a directory of three files whose second file makes `runFilter`
throw. -/
theorem main_runFilter_exception_witness :
    (main (fun _ _ => true) (Except.ok
      [{ path := "data/a.pgm".toList, good := true, indeterminate := 0,
         filter := Except.ok () },
       { path := "data/b.pgm".toList, good := true, indeterminate := 0,
         filter := Except.error CppException.nppException },
       { path := "data/c.pgm".toList, good := true, indeterminate := 0,
         filter := Except.ok () }])).exitCode = EXIT_FAILURE ∧
    (main (fun _ _ => true) (Except.ok
      [{ path := "data/a.pgm".toList, good := true, indeterminate := 0,
         filter := Except.ok () },
       { path := "data/b.pgm".toList, good := true, indeterminate := 0,
         filter := Except.error CppException.nppException },
       { path := "data/c.pgm".toList, good := true, indeterminate := 0,
         filter := Except.ok () }])).invoked.map Prod.fst
      = ["data/a.pgm".toList, "data/b.pgm".toList] :=
  have h := main_runFilter_exception (fun _ _ => true)
    [{ path := "data/a.pgm".toList, good := true, indeterminate := 0,
       filter := Except.ok () },
     { path := "data/b.pgm".toList, good := true, indeterminate := 0,
       filter := Except.error CppException.nppException },
     { path := "data/c.pgm".toList, good := true, indeterminate := 0,
       filter := Except.ok () }] 1
    { path := "data/b.pgm".toList, good := true, indeterminate := 0,
      filter := Except.error CppException.nppException }
    CppException.nppException rfl (by decide) rfl
  ⟨h.1, by rw [h.2.1]; rfl⟩

/-- C8: when the capability check passes and the directory yields no entry,
`runFilter` is never called, no result file is written and `main` ends with
`EXIT_SUCCESS`. -/
theorem main_empty_directory (checkCudaCapabilities : Int → Int → Bool)
    (h : printfNPPinfo checkCudaCapabilities = true) :
    (main checkCudaCapabilities (Except.ok [])).exitCode = EXIT_SUCCESS ∧
    (main checkCudaCapabilities (Except.ok [])).invoked = [] ∧
    (main checkCudaCapabilities (Except.ok [])).written = [] := by
  simp [main, h, mainLoop]

/-- C8 at a capability check that passes. -/
theorem main_empty_directory_witness :
    printfNPPinfo (fun _ _ => true) = true ∧
    (main (fun _ _ => true) (Except.ok [])).exitCode = EXIT_SUCCESS ∧
    (main (fun _ _ => true) (Except.ok [])).invoked = [] ∧
    (main (fun _ _ => true) (Except.ok [])).written = [] :=
  ⟨rfl, main_empty_directory (fun _ _ => true) rfl⟩

/-! ## Facts about the filter step -/

theorem toInt_of_lt (n : Nat) (h : n < 2 ^ 31) : toInt n = (n : Int) := by
  unfold toInt
  have h1 : n % 2 ^ 32 = n := Nat.mod_eq_of_lt (by omega)
  rw [h1, if_pos h]

theorem toUnsigned_of_lt (n : Nat) (h : n < 2 ^ 31) : toUnsigned (n : Int) = n := by
  unfold toUnsigned
  omega

theorem replicateCoord_lt (i : Int) (n : Nat) (h : 1 ≤ n) :
    replicateCoord i (n : Int) < n := by
  unfold replicateCoord
  omega

theorem borderSample_uniformImage (w h v : Nat) (hw : 1 ≤ w) (hh : 1 ≤ h) (x y : Int) :
    borderSample (uniformImage w h v) { width := (w : Int), height := (h : Int) } x y
      = v := by
  unfold borderSample uniformImage
  have hy := replicateCoord_lt y h hh
  have hx := replicateCoord_lt x w hw
  show ((List.replicate h (List.replicate w v)).getD (replicateCoord y h) []).getD
      (replicateCoord x w) 0 = v
  have hrow : (List.replicate h (List.replicate w v)).getD (replicateCoord y h) []
      = List.replicate w v := by
    rw [List.getD_eq_getElem _ _ (by simpa using hy), List.getElem_replicate]
  rw [hrow, List.getD_eq_getElem _ _ (by simpa using hx), List.getElem_replicate]

theorem boxMean_uniformImage (w h v : Nat) (hw : 1 ≤ w) (hh : 1 ≤ h) (x y : Int) :
    boxMean (uniformImage w h v) { width := (w : Int), height := (h : Int) }
      { width := 5, height := 5 } { x := 2, y := 2 } x y = v := by
  unfold boxMean
  simp only [borderSample_uniformImage w h v hw hh, List.map_const', List.sum_replicate,
    List.length_range, smul_eq_mul]
  have h5 : (5 : Int).toNat = 5 := rfl
  have h25 : ((5 : Int) * 5).toNat = 25 := rfl
  rw [h5, h25]
  omega

/-! ## The claims about the filter step -/

/-- C6: for a loaded image of width `w` and height `h` (an image has fewer
than `2 ^ 31` columns and rows, so that both are values of `int`),
`runFilter` passes a region of interest of size `(w, h)` at source offset
`(0, 0)`, allocates a destination of size `(w, h)`, and saves a host image
of width `w` and height `h`. -/
theorem runFilter_preserves_dimensions (oHostSrc : Image_8u_C1)
    (hw : oHostSrc.width < 2 ^ 31) (hh : oHostSrc.height < 2 ^ 31) :
    (runFilter oHostSrc).oSizeROI
      = { width := (oHostSrc.width : Int), height := (oHostSrc.height : Int) } ∧
    (runFilter oHostSrc).oSrcOffset = { x := 0, y := 0 } ∧
    (runFilter oHostSrc).oDeviceDstSize = (oHostSrc.width, oHostSrc.height) ∧
    (runFilter oHostSrc).oHostDst.width = oHostSrc.width ∧
    (runFilter oHostSrc).oHostDst.height = oHostSrc.height := by
  simp only [runFilter, toInt_of_lt _ hw, toInt_of_lt _ hh, toUnsigned_of_lt _ hw,
    toUnsigned_of_lt _ hh, and_self]

/-- C6 at an image of 3 by 2 samples. -/
theorem runFilter_preserves_dimensions_witness :
    (runFilter { width := 3, height := 2, rows := [[1, 2, 3], [40, 50, 60]] }).oSizeROI
      = { width := 3, height := 2 } ∧
    (runFilter { width := 3, height := 2, rows := [[1, 2, 3], [40, 50, 60]] }).oSrcOffset
      = { x := 0, y := 0 } ∧
    (runFilter { width := 3, height := 2, rows := [[1, 2, 3], [40, 50, 60]] }).oDeviceDstSize
      = (3, 2) ∧
    (runFilter { width := 3, height := 2, rows := [[1, 2, 3], [40, 50, 60]] }).oHostDst.width
      = 3 ∧
    (runFilter { width := 3, height := 2, rows := [[1, 2, 3], [40, 50, 60]] }).oHostDst.height
      = 2 :=
  runFilter_preserves_dimensions { width := 3, height := 2, rows := [[1, 2, 3], [40, 50, 60]] }
    (by decide) (by decide)

/-- C7: with the primitive taken as the mean over the window with border
replication, `runFilter` uses a 5 by 5 mask anchored at `(2, 2)` and maps the
image of `w` by `h` samples that are all `v` (both dimensions at least 1 and
values of `int`, `v` an 8-bit value) to the same image. -/
theorem runFilter_uniformImage (w h v : Nat) (hw : 1 ≤ w) (hh : 1 ≤ h)
    (hwi : w < 2 ^ 31) (hhi : h < 2 ^ 31) (hv : v < 256) :
    (runFilter (uniformImage w h v)).oMaskSize = { width := 5, height := 5 } ∧
    (runFilter (uniformImage w h v)).oAnchor = { x := 2, y := 2 } ∧
    (runFilter (uniformImage w h v)).eBorderType = NppiBorderType.NPP_BORDER_REPLICATE ∧
    (runFilter (uniformImage w h v)).oHostDst = uniformImage w h v := by
  refine ⟨rfl, rfl, rfl, ?_⟩
  have h2 : Int.tdiv 5 2 = 2 := rfl
  have hwd : (uniformImage w h v).width = w := rfl
  have hht : (uniformImage w h v).height = h := rfl
  simp only [runFilter, hwd, hht, toInt_of_lt _ hwi, toInt_of_lt _ hhi,
    toUnsigned_of_lt _ hwi, toUnsigned_of_lt _ hhi, nppiFilterBoxBorder_8u_C1R, h2,
    boxMean_uniformImage w h v hw hh, Nat.mod_eq_of_lt hv, List.map_const',
    List.length_range, Int.toNat_ofNat]
  rfl

/-- C7 at the image of 4 by 3 samples that are all 200. -/
theorem runFilter_uniformImage_witness :
    (runFilter (uniformImage 4 3 200)).oMaskSize = { width := 5, height := 5 } ∧
    (runFilter (uniformImage 4 3 200)).oAnchor = { x := 2, y := 2 } ∧
    (runFilter (uniformImage 4 3 200)).eBorderType = NppiBorderType.NPP_BORDER_REPLICATE ∧
    (runFilter (uniformImage 4 3 200)).oHostDst = uniformImage 4 3 200 :=
  runFilter_uniformImage 4 3 200 (by decide) (by decide) (by decide) (by decide) (by decide)

end BoxFilterNPP
